import Mathlib

/-!
Verification development for the audio-to-tasks extraction pipeline
(`src/audio_to_tasks/core/task_extractor.py`, `transcriber.py`, `models.py`).

The Python code is shallowly embedded: pure logic becomes Lean functions,
the external services (Ollama chat backend, Whisper engine, the file
system) become explicit parameters, and fallible code returns `Option` /
`Except` / explicit outcome types.  Standard-library behaviour reached by
the code (`json.loads`, `re.search` on the two concrete patterns,
`str.strip`/`str.lower`, pydantic field validation) is modelled directly,
ASCII-scoped, following the documented semantics of those libraries.
-/

namespace AudioToTasks

/-! ## Character and string helpers (Python `str` operations, ASCII scope) -/

/-- Python whitespace for `str.strip` / regex `\s` (ASCII range):
space, tab, newline, vertical tab, form feed, carriage return. -/
def isSpaceChar (c : Char) : Bool :=
  decide (c.toNat = 32 ∨ c.toNat = 9 ∨ c.toNat = 10 ∨ c.toNat = 11 ∨
    c.toNat = 12 ∨ c.toNat = 13)

/-- `str.strip()` on the underlying character list: drop whitespace from
both ends. -/
def stripChars (l : List Char) : List Char :=
  List.rdropWhile isSpaceChar (List.dropWhile isSpaceChar l)

/-- Python `str.strip()`. -/
def pyStrip (s : String) : String := ⟨stripChars s.data⟩

/-- Python `str.lower()` (ASCII scope; `Char.toLower` lowers exactly
the basic latin letters, as the repository's data requires). -/
def pyLower (s : String) : String := ⟨s.data.map Char.toLower⟩

/-- Substring containment, Python's `needle in hay`. -/
def strContains (hay needle : String) : Bool :=
  decide (needle.data <:+: hay.data)

/-! ## JSON values and `json.loads`

`Json` models the values produced by Python's `json` module; numbers keep
their source lexeme (the claims never inspect numeric magnitude).  Objects
keep their member list in source order; lookups use last-wins semantics,
matching how `json.loads` builds a `dict`. -/

inductive Json where
  | null
  | bool (b : Bool)
  | num (lexeme : String)
  | str (s : String)
  | arr (elems : List Json)
  | obj (members : List (String × Json))
deriving Repr

/-- Python `dict.get` on a parsed object (duplicate keys: last one wins). -/
def objGet (kvs : List (String × Json)) (k : String) : Option Json :=
  match kvs with
  | [] => none
  | (k', v) :: rest =>
    match objGet rest k with
    | some w => some w
    | none => if k' = k then some v else none

def isDigitChar (c : Char) : Bool := 48 ≤ c.toNat && c.toNat ≤ 57

def hexVal (c : Char) : Option Nat :=
  if 48 ≤ c.toNat ∧ c.toNat ≤ 57 then some (c.toNat - 48)
  else if 97 ≤ c.toNat ∧ c.toNat ≤ 102 then some (c.toNat - 87)
  else if 65 ≤ c.toNat ∧ c.toNat ≤ 70 then some (c.toNat - 55)
  else none

/-- JSON string body after the opening quote: returns the decoded content
and the remainder after the closing quote.  Python's strict decoder
rejects raw control characters and unknown escapes. -/
def parseStringBody : Nat → List Char → Option (List Char × List Char)
  | 0, _ => none
  | _, [] => none
  | Nat.succ fuel, c :: rest =>
    if c == '"' then some ([], rest)
    else if c == '\\' then
      match rest with
      | [] => none
      | e :: rest2 =>
        let cont (ch : Char) (rs : List Char) : Option (List Char × List Char) :=
          match parseStringBody fuel rs with
          | some (tail, rem) => some (ch :: tail, rem)
          | none => none
        if e == '"' then cont '"' rest2
        else if e == '\\' then cont '\\' rest2
        else if e == '/' then cont '/' rest2
        else if e == 'b' then cont (Char.ofNat 8) rest2
        else if e == 'f' then cont (Char.ofNat 12) rest2
        else if e == 'n' then cont '\n' rest2
        else if e == 'r' then cont '\r' rest2
        else if e == 't' then cont '\t' rest2
        else if e == 'u' then
          match rest2 with
          | h1 :: h2 :: h3 :: h4 :: rest3 =>
            match hexVal h1, hexVal h2, hexVal h3, hexVal h4 with
            | some a, some b, some c', some d =>
              cont (Char.ofNat (4096 * a + 256 * b + 16 * c' + d)) rest3
            | _, _, _, _ => none
          | _ => none
        else none
    else if c.toNat < 32 then none
    else
      match parseStringBody fuel rest with
      | some (tail, rem) => some (c :: tail, rem)
      | none => none

def takeDigits (cs : List Char) : List Char × List Char :=
  (cs.takeWhile isDigitChar, cs.dropWhile isDigitChar)

/-- Lex one JSON number (the `json` module's NUMBER_RE grammar), returning
the lexeme and the remainder. -/
def lexNumber (cs : List Char) : Option (List Char × List Char) :=
  let (neg, cs1) : List Char × List Char :=
    match cs with
    | '-' :: t => (['-'], t)
    | _ => ([], cs)
  match cs1 with
  | [] => none
  | c :: _ =>
    if !isDigitChar c then none
    else
      let (intPart, cs2) : List Char × List Char :=
        match cs1 with
        | '0' :: t => (['0'], t)
        | _ => takeDigits cs1
      let (fracPart, cs3) : List Char × List Char :=
        match cs2 with
        | '.' :: t =>
          let (ds, r) := takeDigits t
          if ds.isEmpty then ([], cs2) else ('.' :: ds, r)
        | _ => ([], cs2)
      let (expPart, cs4) : List Char × List Char :=
        match cs3 with
        | e :: t =>
          if e == 'e' || e == 'E' then
            let (sgn, t2) : List Char × List Char :=
              match t with
              | s :: t2 => if s == '+' || s == '-' then ([s], t2) else ([], t)
              | [] => ([], t)
            let (ds, r) := takeDigits t2
            if ds.isEmpty then ([], cs3) else (e :: (sgn ++ ds), r)
          else ([], cs3)
        | [] => ([], cs3)
      some (neg ++ intPart ++ fracPart ++ expPart, cs4)

/-- JSON whitespace skipped between tokens (exactly the four characters
the `json` module skips). -/
def jsonWsChar (c : Char) : Bool := c == ' ' || c == '\t' || c == '\n' || c == '\r'

def skipWs (cs : List Char) : List Char := cs.dropWhile jsonWsChar

mutual

/-- Recursive-descent JSON value parser (fuel-indexed). -/
def parseVal : Nat → List Char → Option (Json × List Char)
  | 0, _ => none
  | Nat.succ fuel, cs =>
    match cs with
    | [] => none
    | c :: rest =>
      if c == '\x7b' then
        match skipWs rest with
        | [] => none
        | c2 :: r2 =>
          if c2 == '\x7d' then some (Json.obj [], r2)
          else
            match parseMembers fuel (c2 :: r2) with
            | some (ms, rem) => some (Json.obj ms, rem)
            | none => none
      else if c == '[' then
        match skipWs rest with
        | [] => none
        | c2 :: r2 =>
          if c2 == ']' then some (Json.arr [], r2)
          else
            match parseElems fuel (c2 :: r2) with
            | some (vs, rem) => some (Json.arr vs, rem)
            | none => none
      else if c == '"' then
        match parseStringBody (Nat.succ fuel) rest with
        | some (content, rem) => some (Json.str ⟨content⟩, rem)
        | none => none
      else if ("null".data).isPrefixOf cs then some (Json.null, cs.drop 4)
      else if ("true".data).isPrefixOf cs then some (Json.bool true, cs.drop 4)
      else if ("false".data).isPrefixOf cs then some (Json.bool false, cs.drop 5)
      else if ("NaN".data).isPrefixOf cs then some (Json.num "NaN", cs.drop 3)
      else if ("Infinity".data).isPrefixOf cs then some (Json.num "Infinity", cs.drop 8)
      else if ("-Infinity".data).isPrefixOf cs then some (Json.num "-Infinity", cs.drop 9)
      else
        match lexNumber cs with
        | some (lx, rem) => some (Json.num ⟨lx⟩, rem)
        | none => none

/-- Object members: expects a key string at the head. -/
def parseMembers : Nat → List Char → Option (List (String × Json) × List Char)
  | 0, _ => none
  | Nat.succ fuel, cs =>
    match cs with
    | '"' :: rest =>
      match parseStringBody (Nat.succ fuel) rest with
      | none => none
      | some (key, rem) =>
        match skipWs rem with
        | ':' :: rem2 =>
          match parseVal fuel (skipWs rem2) with
          | none => none
          | some (v, rem3) =>
            match skipWs rem3 with
            | ',' :: rem4 =>
              match skipWs rem4 with
              | '"' :: _ =>
                match parseMembers fuel (skipWs rem4) with
                | some (ms, rem5) => some ((⟨key⟩, v) :: ms, rem5)
                | none => none
              | _ => none
            | c :: rem4 =>
              if c == '\x7d' then some ([(⟨key⟩, v)], rem4) else none
            | [] => none
        | _ => none
    | _ => none

/-- Array elements: expects a value at the head. -/
def parseElems : Nat → List Char → Option (List Json × List Char)
  | 0, _ => none
  | Nat.succ fuel, cs =>
    match parseVal fuel cs with
    | none => none
    | some (v, rem) =>
      match skipWs rem with
      | ',' :: rem2 =>
        match parseElems fuel (skipWs rem2) with
        | some (vs, rem3) => some (v :: vs, rem3)
        | none => none
      | ']' :: rem2 => some ([v], rem2)
      | _ => none

end

/-- Python `json.loads`: optional leading whitespace, one value, and
nothing but whitespace afterwards (else `JSONDecodeError`). -/
def jsonParse (t : String) : Option Json :=
  let cs := skipWs t.data
  match parseVal (2 * t.data.length + 8) cs with
  | some (v, rest) => if (skipWs rest).isEmpty then some v else none
  | none => none

/-! ## The Response Parser (`TaskExtractor._parse_llm_response`)

Three fallback tiers: whole-text `json.loads`; `re.search` for a fenced
code block; `re.search` for a greedy `{ ... "tasks" ... }` span.  The two
`re.search` calls are modelled by direct string scans that realise the
leftmost-match + quantifier-backtracking semantics of those two concrete
patterns. -/

def fenceLit : List Char := "```".data

/-- Lazy part of the tier-2 pattern: scanning the characters after the
opening brace, succeed at the first closing brace whose tail (after
optional whitespace) starts the closing fence; `acc` holds the reversed
group body seen so far. -/
def fencedLazyBody : List Char → List Char → Option (List Char)
  | _, [] => none
  | acc, c :: rest =>
    if c == '\x7d' && fenceLit.isPrefixOf (rest.dropWhile isSpaceChar) then
      some ('\x7b' :: (acc.reverse ++ ['\x7d']))
    else fencedLazyBody (c :: acc) rest

/-- One attempt of the tier-2 regex
` ```(?:json)?\s*(\{.*?\})\s*``` ` (DOTALL) anchored at the head of `cs`;
returns capture group 1. -/
def fencedTryAt (cs : List Char) : Option (List Char) :=
  if fenceLit.isPrefixOf cs then
    let r1 := cs.drop 3
    let r2 := if ("json".data).isPrefixOf r1 then r1.drop 4 else r1
    match r2.dropWhile isSpaceChar with
    | c :: body => if c == '\x7b' then fencedLazyBody [] body else none
    | [] => none
  else none

/-- `re.search` for the tier-2 pattern: first start position admitting a
match wins. -/
def fencedSearch : List Char → Option (List Char)
  | [] => none
  | cs@(_ :: rest) =>
    match fencedTryAt cs with
    | some g => some g
    | none => fencedSearch rest

/-- First index `i ≤ start + n` with `p i`, scanning upwards from `start`. -/
def scanFirst (p : Nat → Bool) : Nat → Nat → Option Nat
  | _, 0 => none
  | i, Nat.succ n => if p i then some i else scanFirst p (i + 1) n

/-- Last index in `[start, start + n)` satisfying `p`. -/
def scanLast (p : Nat → Bool) : Nat → Nat → Option Nat
  | _, 0 => none
  | i, Nat.succ n =>
    match scanLast p (i + 1) n with
    | some j => some j
    | none => if p i then some i else none

def tasksLit : List Char := "\"tasks\"".data

/-- The literal `"tasks"` (quotes included) occurs at index `j`. -/
def tasksAt (cs : List Char) (j : Nat) : Bool := tasksLit.isPrefixOf (cs.drop j)

/-- A closing position for the tier-3 pattern `\{.*"tasks".*\}` (DOTALL)
with the opening brace at `i`: a `\x7d` at `k` preceded by a full
`"tasks"` occurrence strictly after `i`. -/
def closeFeasible (cs : List Char) (i k : Nat) : Bool :=
  (cs[k]? == some '\x7d') &&
    (List.range cs.length).any fun j =>
      decide (i + 1 ≤ j) && tasksAt cs j && decide (j + 7 ≤ k)

/-- The tier-3 pattern can match starting at `i`. -/
def openFeasible (cs : List Char) (i : Nat) : Bool :=
  (cs[i]? == some '\x7b') && (List.range cs.length).any (closeFeasible cs i)

/-- `re.search(r"\{.*\"tasks\".*\}", text, re.DOTALL)`: the match runs
from the first feasible opening brace to the last feasible closing brace
(leftmost start, then greedy `.*`). -/
def tier3Search (t : String) : Option String :=
  match scanFirst (openFeasible t.data) 0 t.data.length with
  | none => none
  | some i =>
    match scanLast (closeFeasible t.data i) 0 t.data.length with
    | none => none
    | some k => some ⟨(t.data.drop i).take (k + 1 - i)⟩

/-- The `"tasks"` entry of a parsed object, empty list when absent:
`data.get("tasks", [])`. -/
def tasksOf (kvs : List (String × Json)) : Json :=
  (objGet kvs "tasks").getD (Json.arr [])

/-- Result of one parser tier.  `attrErr` is the uncaught
`AttributeError` from calling `.get` on a non-`dict` parse result; only
`JSONDecodeError` (`noParse`) lets the chain continue. -/
inductive TierResult where
  | success (tasks : Json)
  | attrErr
  | noParse
deriving Repr

def tier1 (t : String) : TierResult :=
  match jsonParse t with
  | some (Json.obj kvs) => TierResult.success (tasksOf kvs)
  | some _ => TierResult.attrErr
  | none => TierResult.noParse

def tier2 (t : String) : TierResult :=
  match fencedSearch t.data with
  | none => TierResult.noParse
  | some g =>
    match jsonParse ⟨g⟩ with
    | some (Json.obj kvs) => TierResult.success (tasksOf kvs)
    | some _ => TierResult.attrErr
    | none => TierResult.noParse

def tier3 (t : String) : TierResult :=
  match tier3Search t with
  | none => TierResult.noParse
  | some g =>
    match jsonParse g with
    | some (Json.obj kvs) => TierResult.success (tasksOf kvs)
    | some _ => TierResult.attrErr
    | none => TierResult.noParse

/-- Outcome of `_parse_llm_response`: success records the tier that
produced the task value; `parseError` is the final
`TaskExtractionError`; `attrError` the uncaught `AttributeError`. -/
inductive ParseOutcome where
  | ok (tier : Nat) (tasks : Json)
  | attrError
  | parseError
deriving Repr

/-- `TaskExtractor._parse_llm_response` (task_extractor.py lines 111-153). -/
def parseLlmResponse (t : String) : ParseOutcome :=
  match tier1 t with
  | TierResult.success v => ParseOutcome.ok 1 v
  | TierResult.attrErr => ParseOutcome.attrError
  | TierResult.noParse =>
    match tier2 t with
    | TierResult.success v => ParseOutcome.ok 2 v
    | TierResult.attrErr => ParseOutcome.attrError
    | TierResult.noParse =>
      match tier3 t with
      | TierResult.success v => ParseOutcome.ok 3 v
      | TierResult.attrErr => ParseOutcome.attrError
      | TierResult.noParse => ParseOutcome.parseError

/-! ## Data model (`models.py`) -/

inductive TaskPriority where
  | low
  | medium
  | high
  | urgent
deriving DecidableEq, Repr

/-- The enum value string of a priority. -/
def TaskPriority.value : TaskPriority → String
  | TaskPriority.low => "low"
  | TaskPriority.medium => "medium"
  | TaskPriority.high => "high"
  | TaskPriority.urgent => "urgent"

/-- `TaskPriority(s)`: value lookup, `ValueError` (`none`) on anything else. -/
def taskPriorityOfString (s : String) : Option TaskPriority :=
  if s = "low" then some TaskPriority.low
  else if s = "medium" then some TaskPriority.medium
  else if s = "high" then some TaskPriority.high
  else if s = "urgent" then some TaskPriority.urgent
  else none

inductive TaskStatus where
  | pending
  | in_progress
  | completed
  | cancelled
deriving DecidableEq, Repr

def TaskStatus.value : TaskStatus → String
  | TaskStatus.pending => "pending"
  | TaskStatus.in_progress => "in_progress"
  | TaskStatus.completed => "completed"
  | TaskStatus.cancelled => "cancelled"

def taskStatusOfString (s : String) : Option TaskStatus :=
  if s = "pending" then some TaskStatus.pending
  else if s = "in_progress" then some TaskStatus.in_progress
  else if s = "completed" then some TaskStatus.completed
  else if s = "cancelled" then some TaskStatus.cancelled
  else none

/-- A validated `Task` (models.py lines 31-62).  `due_date` keeps the
canonical ISO text of the parsed datetime (the model restricts pydantic's
datetime coercion to ISO `YYYY-MM-DDTHH:MM:SS` strings; no claim
exercises other datetime spellings). -/
structure Task where
  title : String
  description : Option String
  priority : TaskPriority
  status : TaskStatus
  due_date : Option String
  assignee : Option String
  tags : List String
  source_segment : Option String
deriving DecidableEq, Repr

/-- The digits test for one position of an ISO datetime string. -/
def digitsAt (cs : List Char) (i : Nat) : Bool :=
  match cs[i]? with
  | some c => isDigitChar c
  | none => false

def natAt2 (cs : List Char) (i : Nat) : Nat :=
  (match cs[i]? with | some c => c.toNat - 48 | none => 0) * 10 +
    (match cs[i + 1]? with | some c => c.toNat - 48 | none => 0)

/-- Recogniser for the canonical ISO form `YYYY-MM-DDTHH:MM:SS`. -/
def isoOk (s : String) : Bool :=
  let cs := s.data
  cs.length == 19 &&
    [0, 1, 2, 3, 5, 6, 8, 9, 11, 12, 14, 15, 17, 18].all (digitsAt cs) &&
    cs[4]? == some '-' && cs[7]? == some '-' && cs[10]? == some 'T' &&
    cs[13]? == some ':' && cs[16]? == some ':' &&
    decide (1 ≤ natAt2 cs 5) && decide (natAt2 cs 5 ≤ 12) &&
    decide (1 ≤ natAt2 cs 8) && decide (natAt2 cs 8 ≤ 31) &&
    decide (natAt2 cs 11 ≤ 23) && decide (natAt2 cs 14 ≤ 59) &&
    decide (natAt2 cs 17 ≤ 59)

/-! ## The Task Normalizer
(the per-record body of `TaskExtractor.extract_tasks`, task_extractor.py
lines 209-221, together with pydantic validation of `Task`). -/

/-- Python truthiness of a JSON-derived value (`if task_dict["priority"]:`). -/
def jsonTruthy : Json → Bool
  | Json.null => false
  | Json.bool b => b
  | Json.num lx =>
    -- a numeric literal is falsy exactly when its mantissa digits are all zero
    !((lx.data.takeWhile fun c => !(c == 'e' || c == 'E')).any
        fun c => isDigitChar c && !(c == '0'))
  | Json.str s => !s.data.isEmpty
  | Json.arr l => !l.isEmpty
  | Json.obj kvs => !kvs.isEmpty

/-- The pre-coercion of a truthy `priority` value
(`TaskPriority(str(v).lower())`, defaulting to medium on `ValueError`).
`str()` of a non-string JSON value is never one of the four enum value
strings, so every non-string truthy value coerces to medium. -/
def coercePriority (v : Json) : TaskPriority :=
  match v with
  | Json.str s => (taskPriorityOfString (pyLower s)).getD TaskPriority.medium
  | _ => TaskPriority.medium

/-- The `priority` entry after the orchestrator's coercion step followed
by pydantic validation: absent ⇒ default medium; present and truthy ⇒
coerced enum member; present and falsy (null, "", 0, false, [], ...) ⇒
left untouched and rejected by the non-optional enum field. -/
def validatePriority (v : Option Json) : Option TaskPriority :=
  match v with
  | none => some TaskPriority.medium
  | some w => if jsonTruthy w then some (coercePriority w) else none

/-- pydantic validation of `title`: a string, stripped
(`str_strip_whitespace`), then `min_length=1`, `max_length=200`. -/
def validateTitle (v : Option Json) : Option String :=
  match v with
  | some (Json.str s) =>
    let s' := pyStrip s
    if 1 ≤ s'.length ∧ s'.length ≤ 200 then some s' else none
  | _ => none

/-- pydantic validation of an optional string field
(`description`, `assignee`, `source_segment`): `None` passes through,
strings are stripped, anything else is rejected. -/
def validateOptStr (v : Option Json) : Option (Option String) :=
  match v with
  | none => some none
  | some Json.null => some none
  | some (Json.str s) => some (some (pyStrip s))
  | some _ => none

/-- pydantic validation of `status`: default pending; otherwise the exact
enum value string (no coercion is applied by the orchestrator). -/
def validateStatus (v : Option Json) : Option TaskStatus :=
  match v with
  | none => some TaskStatus.pending
  | some (Json.str s) => taskStatusOfString s
  | some _ => none

/-- pydantic validation of `due_date : datetime | None`, restricted to
canonical ISO strings (see `Task.due_date`). -/
def validateDueDate (v : Option Json) : Option (Option String) :=
  match v with
  | none => some none
  | some Json.null => some none
  | some (Json.str s) => if isoOk s then some (some s) else none
  | some _ => none

/-- The `normalize_tags` before-validator (models.py lines 52-62):
`None`/non-list ⇒ `[]`; list ⇒ keep the string entries whose strip is
non-empty, as `tag.lower().strip()`. -/
def tagsFromJson (v : Option Json) : List String :=
  match v with
  | some (Json.arr l) =>
    l.filterMap fun e =>
      match e with
      | Json.str s => if pyStrip s = "" then none else some (pyStrip (pyLower s))
      | _ => none
  | _ => []

def taskFieldNames : List String :=
  ["title", "description", "priority", "status", "due_date", "assignee",
    "tags", "source_segment"]

/-- `extra="forbid"`: every key of the record is a declared field. -/
def allowedKeys (kvs : List (String × Json)) : Bool :=
  kvs.all fun p => taskFieldNames.contains p.1

/-- One record through the normalization step: the orchestrator's
priority coercion followed by `Task(**task_dict)`; any validation failure
yields `none` (the record is logged and skipped).  A non-`dict` record
fails `Task(**...)` and is likewise skipped. -/
def normalizeFields (vtitle vdesc vprio vstat vdue vass vsrc vtags : Option Json) :
    Option Task :=
  (validateTitle vtitle).bind fun title =>
    (validateOptStr vdesc).bind fun description =>
      (validatePriority vprio).bind fun priority =>
        (validateStatus vstat).bind fun status =>
          (validateDueDate vdue).bind fun due_date =>
            (validateOptStr vass).bind fun assignee =>
              (validateOptStr vsrc).bind fun source_segment =>
                some
                  { title := title, description := description,
                    priority := priority, status := status,
                    due_date := due_date, assignee := assignee,
                    tags := tagsFromJson vtags,
                    source_segment := source_segment }

def normalizeRecord (j : Json) : Option Task :=
  match j with
  | Json.obj kvs =>
    if allowedKeys kvs then
      normalizeFields (objGet kvs "title") (objGet kvs "description")
        (objGet kvs "priority") (objGet kvs "status") (objGet kvs "due_date")
        (objGet kvs "assignee") (objGet kvs "source_segment")
        (objGet kvs "tags")
    else none
  | _ => none

/-- The normalization loop over the parsed records: invalid records are
skipped, survivors keep their order (task_extractor.py lines 208-221). -/
def normalizeBatch (l : List Json) : List Task := l.filterMap normalizeRecord

/-- The `title` of a raw record is missing, empty, or whitespace-only
after trimming. -/
def badTitleRecord (kvs : List (String × Json)) : Bool :=
  match objGet kvs "title" with
  | none => true
  | some (Json.str s) => pyStrip s == ""
  | some _ => false

/-- Remove every entry with the given key from a record. -/
def removeKey (kvs : List (String × Json)) (k : String) : List (String × Json) :=
  kvs.filter fun p => !(p.1 == k)

/-- The priority level a non-empty priority string is coerced to:
its case-insensitive enum value, or the medium default. -/
def priorityFromString (s : String) : TaskPriority :=
  (taskPriorityOfString (pyLower s)).getD TaskPriority.medium

/-- An optional string field value in the consumed task-record schema. -/
def optJson : Option String → Json
  | none => Json.null
  | some s => Json.str s

/-- The field mapping of a `Task`, with the JSON field values the
consumed task-record schema uses. -/
def taskToRecord (t : Task) : List (String × Json) :=
  [("title", Json.str t.title), ("description", optJson t.description),
    ("priority", Json.str t.priority.value),
    ("status", Json.str t.status.value), ("due_date", optJson t.due_date),
    ("assignee", optJson t.assignee),
    ("tags", Json.arr (t.tags.map Json.str)),
    ("source_segment", optJson t.source_segment)]

/-! ## Transcription data model (`models.py` lines 87-112) -/

structure TranscriptionSegment where
  start : Rat
  «end» : Rat
  text : String
deriving DecidableEq, Repr

/-- Derived `duration` property. -/
def TranscriptionSegment.duration (s : TranscriptionSegment) : Rat :=
  s.«end» - s.start

/-- Pydantic construction of `TranscriptionSegment`: the only constraints
are `start ≥ 0` and `end ≥ 0`. -/
def mkTranscriptionSegment (start «end» : Rat) (text : String) :
    Option TranscriptionSegment :=
  if 0 ≤ start ∧ 0 ≤ «end» then some ⟨start, «end», text⟩ else none

structure TranscriptionResult where
  text : String
  segments : List TranscriptionSegment
  language : String
  language_probability : Rat
  duration_seconds : Rat
  audio_path : Option String
deriving DecidableEq, Repr

/-- Segments in chronological order of their start times. -/
def chronological (l : List TranscriptionSegment) : Prop :=
  l.Chain' fun a b => a.start ≤ b.start

/-- Pydantic construction of `TranscriptionResult`: constrains only
`language_probability ∈ [0,1]` and `duration_seconds ≥ 0`. -/
def mkTranscriptionResult (text : String) (segments : List TranscriptionSegment)
    (language : String) (language_probability : Rat) (duration_seconds : Rat)
    (audio_path : Option String) : Option TranscriptionResult :=
  if 0 ≤ language_probability ∧ language_probability ≤ 1 ∧ 0 ≤ duration_seconds
  then some ⟨text, segments, language, language_probability, duration_seconds,
    audio_path⟩
  else none

/-! ## The Extraction Orchestrator (`TaskExtractor.extract_tasks`,
task_extractor.py lines 155-238).

The Ollama chat call is an explicit oracle parameter; the second
component of the result counts how many times the orchestrator invoked
it.  `created_at` (a wall-clock timestamp on `TaskList`) is outside the
pure embedding and omitted. -/

structure TaskList where
  tasks : List Task
  source_audio : Option String
  total_duration_seconds : Option Rat
  language : Option String
deriving DecidableEq, Repr

/-- `TaskList.task_count`. -/
def TaskList.task_count (tl : TaskList) : Nat := tl.tasks.length

inductive ExtractInput where
  | fromTranscription (tr : TranscriptionResult)
  | fromText (t : String)

/-- The text the orchestrator extracts from (lines 171-180). -/
def textOf : ExtractInput → String
  | ExtractInput.fromTranscription tr => tr.text
  | ExtractInput.fromText t => t

structure SourceMeta where
  source_audio : Option String
  total_duration_seconds : Option Rat
  language : Option String
deriving DecidableEq, Repr

/-- Source metadata carried into the `TaskList` (lines 171-180). -/
def metaOf : ExtractInput → SourceMeta
  | ExtractInput.fromTranscription tr =>
    ⟨tr.audio_path, some tr.duration_seconds, some tr.language⟩
  | ExtractInput.fromText _ => ⟨none, none, none⟩

/-- The chat oracle's answer: the completion text, or any raised
exception (its message). -/
inductive ChatResult where
  | success (content : String)
  | failure (message : String)

/-- Outcome of `extract_tasks`: a `TaskList`, or a raised
`TaskExtractionError` (parser exhaustion and every other in-`try` failure
are both surfaced as `TaskExtractionError`, lines 232-238). -/
inductive ExtractOutcome where
  | ok (result : TaskList)
  | extractionError (message : String)
deriving DecidableEq, Repr

/-- The prompt template `TASK_EXTRACTION_PROMPT.format(transcription=text)`
(lines 29-59, 194): a fixed prefix and suffix around the transcription. -/
def promptHead : String :=
  "You are a task extraction assistant. Analyze the following transcription"
    ++ " from a meeting or voice note and extract actionable tasks.\n\n"
    ++ "For each task, you MUST provide:\n"
    ++ "- title: A clear, concise task title (action verb + object)\n"
    ++ "- description: REQUIRED - A brief summary explaining what needs to be"
    ++ " done and any relevant context from the transcription. Always include"
    ++ " this field with meaningful content.\n"
    ++ "- priority: \"low\", \"medium\", \"high\", or \"urgent\"\n"
    ++ "- assignee: Person responsible (if mentioned, otherwise null)\n"
    ++ "- due_date: Deadline in ISO format (if mentioned, otherwise null)\n"
    ++ "- tags: Relevant categories\n\n"
    ++ "Return ONLY valid JSON in this exact format:\n"
    ++ "\x7b\n    \"tasks\": [\n        \x7b\n"
    ++ "            \"title\": \"Task title here\",\n"
    ++ "            \"description\": \"Brief summary of the task with"
    ++ " context from the transcription\",\n"
    ++ "            \"priority\": \"medium\",\n"
    ++ "            \"assignee\": null,\n"
    ++ "            \"due_date\": null,\n"
    ++ "            \"tags\": [\"tag1\", \"tag2\"]\n"
    ++ "        \x7d\n    ]\n\x7d\n\n"
    ++ "TRANSCRIPTION:\n---\n"

def promptTail : String :=
  "\n---\n\nExtract all tasks from the transcription above. Each task MUST"
    ++ " have a description summarizing what needs to be done. If no clear"
    ++ " tasks are found, return \x7b\"tasks\": []\x7d.\n"

def promptFor (text : String) : String := promptHead ++ text ++ promptTail

/-- Iterating the parsed `tasks` value (`for task_dict in task_dicts`):
lists iterate their elements; strings iterate one-character strings;
dicts iterate their keys; other values raise `TypeError`, which escapes
the per-record handler and aborts the call. -/
def recordsOf (v : Json) : Except Unit (List Json) :=
  match v with
  | Json.arr l => Except.ok l
  | Json.str s => Except.ok (s.data.map fun c => Json.str ⟨[c]⟩)
  | Json.obj kvs => Except.ok ((kvs.map Prod.fst).eraseDups.map Json.str)
  | _ => Except.error ()

/-- `TaskExtractor.extract_tasks` with the chat call as an oracle; the
`Nat` counts chat invocations. -/
def extract_tasks (chat : String → ChatResult) (input : ExtractInput) :
    ExtractOutcome × Nat :=
  let text := textOf input
  let meta := metaOf input
  if pyStrip text = "" then
    (ExtractOutcome.ok
      { tasks := [], source_audio := meta.source_audio,
        total_duration_seconds := meta.total_duration_seconds,
        language := meta.language }, 0)
  else
    match chat (promptFor text) with
    | ChatResult.failure msg =>
      (ExtractOutcome.extractionError ("Task extraction failed: " ++ msg), 1)
    | ChatResult.success content =>
      match parseLlmResponse content with
      | ParseOutcome.ok _ v =>
        match recordsOf v with
        | Except.ok recs =>
          (ExtractOutcome.ok
            { tasks := normalizeBatch recs, source_audio := meta.source_audio,
              total_duration_seconds := meta.total_duration_seconds,
              language := meta.language }, 1)
        | Except.error _ =>
          (ExtractOutcome.extractionError
            "Task extraction failed: TypeError", 1)
      | ParseOutcome.parseError =>
        (ExtractOutcome.extractionError
          "Failed to parse task extraction response", 1)
      | ParseOutcome.attrError =>
        (ExtractOutcome.extractionError
          "Task extraction failed: AttributeError", 1)

/-! ## Connectivity Check (`TaskExtractor.check_connection`,
task_extractor.py lines 83-109).

The backend query `client.list()` is a parameter: either a raised
exception (its message) or the installed models, each an entry whose
optional `name` is read with `m.get("name", "")` (names are strings per
the client's response contract). -/

structure OllamaConfig where
  host : String
  model : String
deriving Repr

structure ModelEntry where
  name : Option String
deriving Repr

inductive CheckOutcome where
  | ok (b : Bool)
  | modelNotFound (model : String)
  | connError (message : String)
deriving DecidableEq, Repr

/-- Python `str.split(sep)` for a one-character separator, on the
underlying list. -/
def splitOnChar (sep : Char) : List Char → List (List Char)
  | [] => [[]]
  | c :: rest =>
    let r := splitOnChar sep rest
    if c == sep then [] :: r
    else
      match r with
      | h :: t => (c :: h) :: t
      | [] => [[c]]

/-- `self._config.model.split(":")[0]`. -/
def modelBase (model : String) : String :=
  ⟨(splitOnChar ':' model.data).headD []⟩

def check_connection (cfg : OllamaConfig)
    (backend : Except String (List ModelEntry)) : CheckOutcome :=
  match backend with
  | Except.error e =>
    CheckOutcome.connError
      ("Cannot connect to Ollama at " ++ cfg.host ++ ": " ++ e)
  | Except.ok models =>
    let model_names := models.map fun m => m.name.getD ""
    let model_base := modelBase cfg.model
    if model_names.any (fun name => strContains name model_base) then
      CheckOutcome.ok true
    else
      CheckOutcome.modelNotFound cfg.model

/-! ## The Transcription Adapter (`Transcriber`, transcriber.py).

The Whisper engine is an oracle parameter; the `Nat` in the result counts
engine invocations.  The file system is represented by the queried
attributes of the given path. -/

structure FsPath where
  path : String
  isExisting : Bool
  isFile : Bool

def SUPPORTED_FORMATS : List String :=
  ["mp3", "wav", "m4a", "flac", "ogg", "webm", "wma", "opus"]

/-- `pathlib.Path.suffix` of the final path component: from the last dot,
provided it is neither the first nor the last character of the name. -/
def pathSuffix (p : String) : String :=
  let name := (splitOnChar '/' p.data).getLastD []
  match scanLast (fun i => name[i]? == some '.') 0 name.length with
  | some i => if 0 < i ∧ i < name.length - 1 then ⟨name.drop i⟩ else ""
  | none => ""

/-- `path.suffix.lstrip(".")` (model validator `infer_format_from_path`). -/
def formatOf (p : String) : String := ⟨(pathSuffix p).data.dropWhile (· == '.')⟩

structure AudioFile where
  path : FsPath
  format : String

inductive AudioError where
  | notFound (message : String)
  | notAFile (message : String)
  | unsupportedFormat (format : String)
deriving DecidableEq, Repr

/-- `Transcriber.validate_audio_file` (transcriber.py lines 85-104):
`AudioFile(path=path)` validation (existence, regular file, inferred
format) then the supported-format check. -/
def validate_audio_file (p : FsPath) : Except AudioError AudioFile :=
  if !p.isExisting then
    Except.error (AudioError.notFound ("Audio file not found: " ++ p.path))
  else if !p.isFile then
    Except.error (AudioError.notAFile ("Path is not a file: " ++ p.path))
  else
    let format_lower := pyLower (formatOf p.path)
    if !SUPPORTED_FORMATS.contains format_lower then
      Except.error (AudioError.unsupportedFormat format_lower)
    else
      Except.ok ⟨p, formatOf p.path⟩

/-- The engine's answer: raw segments `(start, end, text)` plus detected
language and probability, or a raised exception. -/
inductive EngineResult where
  | ok (segments : List (Rat × Rat × String)) (language : String)
      (probability : Rat)
  | failure (message : String)

inductive TranscribeOutcome where
  | ok (result : TranscriptionResult)
  | audioError (e : AudioError)
  | transcriptionError (message : String)
deriving DecidableEq, Repr

/-- Map raw engine segments through `TranscriptionSegment` construction
with stripped text; any pydantic failure aborts into the `except` clause. -/
def buildSegments (raw : List (Rat × Rat × String)) :
    Option (List TranscriptionSegment) :=
  match raw with
  | [] => some []
  | (s, e, txt) :: rest =>
    match mkTranscriptionSegment s e (pyStrip txt) with
    | none => none
    | some seg =>
      match buildSegments rest with
      | none => none
      | some segs => some (seg :: segs)

/-- `" ".join(full_text_parts)`. -/
def joinSpace : List String → String
  | [] => ""
  | [s] => s
  | s :: rest => s ++ " " ++ joinSpace rest

/-- `Transcriber.transcribe` (transcriber.py lines 106-175) with the
engine as an oracle; the `Nat` counts engine invocations.  Validation
runs before the engine is consulted. -/
def transcribe (engine : Unit → EngineResult) (p : FsPath) :
    TranscribeOutcome × Nat :=
  match validate_audio_file p with
  | Except.error e => (TranscribeOutcome.audioError e, 0)
  | Except.ok _ =>
    match engine () with
    | EngineResult.failure msg =>
      (TranscribeOutcome.transcriptionError ("Transcription failed: " ++ msg), 1)
    | EngineResult.ok raw language probability =>
      match buildSegments raw with
      | none =>
        (TranscribeOutcome.transcriptionError "Transcription failed: validation", 1)
      | some segments =>
        let full_text := joinSpace (raw.map fun r => pyStrip r.2.2)
        let duration := (segments.getLast?.map TranscriptionSegment.«end»).getD 0
        match mkTranscriptionResult full_text segments language probability
            duration (some p.path) with
        | some tr => (TranscribeOutcome.ok tr, 1)
        | none =>
          (TranscribeOutcome.transcriptionError "Transcription failed: validation", 1)

/-! # Theorems

## Lemmas on the Python string operations -/

theorem str_ext {a b : String} (h : a.data = b.data) : a = b := by
  cases a; cases b; exact congrArg String.mk h

theorem str_eq_iff_data {a b : String} : a = b ↔ a.data = b.data :=
  ⟨fun h => h ▸ rfl, str_ext⟩

theorem data_append (a b : String) : (a ++ b).data = a.data ++ b.data := by
  cases a; cases b; rfl

theorem charOfNat_toNat {n : Nat} (h : n < 55296) : (Char.ofNat n).toNat = n := by
  have hv : Nat.isValidChar n := Or.inl h
  simp [Char.ofNat, hv, Char.ofNatAux, Char.toNat, UInt32.toNat, UInt32.ofNat']

theorem toLower_toNat (c : Char) :
    (Char.toLower c).toNat =
      if 65 ≤ c.toNat ∧ c.toNat ≤ 90 then c.toNat + 32 else c.toNat := by
  unfold Char.toLower
  simp only [ge_iff_le]
  split
  · next h => exact charOfNat_toNat (by omega)
  · rfl

theorem char_toNat_inj {a b : Char} (h : a.toNat = b.toNat) : a = b := by
  have := congrArg Char.ofNat h
  rwa [Char.ofNat_toNat, Char.ofNat_toNat] at this

theorem toLower_idem (c : Char) : Char.toLower (Char.toLower c) = Char.toLower c := by
  apply char_toNat_inj
  rw [toLower_toNat (Char.toLower c), toLower_toNat c]
  split_ifs <;> omega

theorem isSpaceChar_toLower (c : Char) :
    isSpaceChar (Char.toLower c) = isSpaceChar c := by
  unfold isSpaceChar
  rw [toLower_toNat]
  split_ifs with h
  · simp only [decide_eq_decide]; omega
  · rfl

theorem dropWhile_rdropWhile_dropWhile {α : Type} (p : α → Bool) (l : List α) :
    List.dropWhile p (List.rdropWhile p (List.dropWhile p l)) =
      List.rdropWhile p (List.dropWhile p l) := by
  rw [List.dropWhile_eq_self_iff]
  intro hl
  have hpre := List.rdropWhile_prefix p (List.dropWhile p l)
  have hlen : 0 < (List.dropWhile p l).length := lt_of_lt_of_le hl hpre.length_le
  have h0 : (List.rdropWhile p (List.dropWhile p l)).get ⟨0, hl⟩ =
      (List.dropWhile p l).get ⟨0, hlen⟩ := by
    simpa [List.get_eq_getElem] using hpre.getElem (show 0 < _ from hl)
  rw [h0]
  exact List.dropWhile_get_zero_not p l hlen

theorem stripChars_idem (l : List Char) :
    stripChars (stripChars l) = stripChars l := by
  unfold stripChars
  rw [dropWhile_rdropWhile_dropWhile, List.rdropWhile_idempotent]

theorem stripChars_map_toLower (l : List Char) :
    stripChars (l.map Char.toLower) = (stripChars l).map Char.toLower := by
  have hcomp : (isSpaceChar ∘ Char.toLower) = isSpaceChar := funext isSpaceChar_toLower
  unfold stripChars
  rw [List.dropWhile_map, hcomp, List.rdropWhile, List.rdropWhile,
    ← List.map_reverse, List.dropWhile_map, hcomp, ← List.map_reverse]

theorem pyStrip_idem (s : String) : pyStrip (pyStrip s) = pyStrip s :=
  str_ext (stripChars_idem s.data)

theorem pyLower_idem (s : String) : pyLower (pyLower s) = pyLower s :=
  str_ext (by
    rw [show (pyLower (pyLower s)).data = (s.data.map Char.toLower).map Char.toLower from rfl,
      List.map_map]
    exact List.map_congr_left fun a _ => toLower_idem a)

theorem pyStrip_pyLower (s : String) : pyStrip (pyLower s) = pyLower (pyStrip s) :=
  str_ext (stripChars_map_toLower s.data)

theorem pyStrip_eq_empty_iff {s : String} : pyStrip s = "" ↔ stripChars s.data = [] := by
  rw [str_eq_iff_data]
  exact Iff.rfl

theorem pyLower_eq_empty_iff {s : String} : pyLower s = "" ↔ s = "" := by
  rw [str_eq_iff_data, str_eq_iff_data]
  show s.data.map Char.toLower = [] ↔ s.data = []
  simp

theorem pyStrip_pyLower_eq_empty_iff {s : String} :
    pyStrip (pyLower s) = "" ↔ pyStrip s = "" := by
  rw [pyStrip_pyLower, pyLower_eq_empty_iff]

/-! ## Lemmas on the Task Normalizer -/

theorem normalizeFields_eq_some {vt vd vp vs vdd va vss vtg : Option Json}
    {t : Task} :
    normalizeFields vt vd vp vs vdd va vss vtg = some t ↔
      validateTitle vt = some t.title ∧
        validateOptStr vd = some t.description ∧
          validatePriority vp = some t.priority ∧
            validateStatus vs = some t.status ∧
              validateDueDate vdd = some t.due_date ∧
                validateOptStr va = some t.assignee ∧
                  validateOptStr vss = some t.source_segment ∧
                    tagsFromJson vtg = t.tags := by
  constructor
  · intro h
    simp only [normalizeFields, Option.bind_eq_some] at h
    obtain ⟨ti, h1, de, h2, pr, h3, st, h4, dd, h5, asg, h6, ss, h7, heq⟩ := h
    cases Option.some.inj heq
    exact ⟨h1, h2, h3, h4, h5, h6, h7, rfl⟩
  · rintro ⟨h1, h2, h3, h4, h5, h6, h7, h8⟩
    unfold normalizeFields
    rw [h1, h2, h3, h4, h5, h6, h7]
    simp only [Option.some_bind]
    rw [h8]

theorem validateTitle_self {s : String} (h1 : pyStrip s = s) (h2 : 1 ≤ s.length)
    (h3 : s.length ≤ 200) : validateTitle (some (Json.str s)) = some s := by
  simp only [validateTitle]
  rw [h1, if_pos ⟨h2, h3⟩]

theorem validateTitle_inv {v : Option Json} {s : String}
    (h : validateTitle v = some s) :
    pyStrip s = s ∧ 1 ≤ s.length ∧ s.length ≤ 200 := by
  unfold validateTitle at h
  match v with
  | none => exact absurd h (by simp)
  | some Json.null => exact absurd h (by simp)
  | some (Json.bool b) => exact absurd h (by simp)
  | some (Json.num lx) => exact absurd h (by simp)
  | some (Json.arr l) => exact absurd h (by simp)
  | some (Json.obj kvs) => exact absurd h (by simp)
  | some (Json.str s0) =>
    simp only at h
    split at h
    · next hc =>
      cases Option.some.inj h
      exact ⟨pyStrip_idem s0, hc.1, hc.2⟩
    · exact absurd h (by simp)

theorem validateOptStr_self {o : Option String}
    (h : ∀ s ∈ o, pyStrip s = s) :
    validateOptStr (some (optJson o)) = some o := by
  match o with
  | none => rfl
  | some s =>
    show validateOptStr (some (Json.str s)) = some (some s)
    simp only [validateOptStr]
    rw [h s rfl]

theorem validateOptStr_inv {v : Option Json} {o : Option String}
    (h : validateOptStr v = some o) : ∀ s ∈ o, pyStrip s = s := by
  unfold validateOptStr at h
  match v with
  | none =>
    cases Option.some.inj h
    intro s hs; cases hs
  | some Json.null =>
    cases Option.some.inj h
    intro s hs; cases hs
  | some (Json.str s0) =>
    cases Option.some.inj h
    intro s hs
    cases Option.some.inj hs
    exact pyStrip_idem s0
  | some (Json.bool b) => exact absurd h (by simp)
  | some (Json.num lx) => exact absurd h (by simp)
  | some (Json.arr l) => exact absurd h (by simp)
  | some (Json.obj kvs) => exact absurd h (by simp)

theorem validatePriority_value (p : TaskPriority) :
    validatePriority (some (Json.str p.value)) = some p := by
  cases p <;> decide

theorem validateStatus_value (st : TaskStatus) :
    validateStatus (some (Json.str st.value)) = some st := by
  cases st <;> decide

theorem validateDueDate_self {o : Option String}
    (h : ∀ s ∈ o, isoOk s = true) :
    validateDueDate (some (optJson o)) = some o := by
  match o with
  | none => rfl
  | some s =>
    show validateDueDate (some (Json.str s)) = some (some s)
    simp only [validateDueDate]
    rw [if_pos (h s rfl)]

theorem validateDueDate_inv {v : Option Json} {o : Option String}
    (h : validateDueDate v = some o) : ∀ s ∈ o, isoOk s = true := by
  unfold validateDueDate at h
  match v with
  | none =>
    cases Option.some.inj h
    intro s hs; cases hs
  | some Json.null =>
    cases Option.some.inj h
    intro s hs; cases hs
  | some (Json.str s0) =>
    simp only at h
    split at h
    · next hc =>
      cases Option.some.inj h
      intro s hs
      cases Option.some.inj hs
      exact hc
    · exact absurd h (by simp)
  | some (Json.bool b) => exact absurd h (by simp)
  | some (Json.num lx) => exact absurd h (by simp)
  | some (Json.arr l) => exact absurd h (by simp)
  | some (Json.obj kvs) => exact absurd h (by simp)

theorem tagsFromJson_mem {v : Option Json} {x : String}
    (hx : x ∈ tagsFromJson v) :
    pyStrip x = x ∧ pyLower x = x ∧ x ≠ "" := by
  match v with
  | none => cases hx
  | some Json.null => cases hx
  | some (Json.bool b) => cases hx
  | some (Json.num lx) => cases hx
  | some (Json.str s) => cases hx
  | some (Json.obj kvs) => cases hx
  | some (Json.arr l) =>
    unfold tagsFromJson at hx
    rw [List.mem_filterMap] at hx
    obtain ⟨e, _, he⟩ := hx
    match e with
    | Json.null => exact absurd he (by simp)
    | Json.bool b => exact absurd he (by simp)
    | Json.num lx => exact absurd he (by simp)
    | Json.arr l2 => exact absurd he (by simp)
    | Json.obj kvs => exact absurd he (by simp)
    | Json.str s =>
      simp only at he
      split at he
      · exact absurd he (by simp)
      · next hne =>
        cases Option.some.inj he
        refine ⟨pyStrip_idem (pyLower s), ?_, ?_⟩
        · rw [pyStrip_pyLower]
          exact pyLower_idem (pyStrip s)
        · rw [Ne, pyStrip_pyLower_eq_empty_iff]
          exact hne

theorem tagsFromJson_self {l : List String}
    (h : ∀ x ∈ l, pyStrip x = x ∧ pyLower x = x ∧ x ≠ "") :
    tagsFromJson (some (Json.arr (l.map Json.str))) = l := by
  induction l with
  | nil => rfl
  | cons x xs ih =>
    obtain ⟨hs, hl, hne⟩ := h x (by simp)
    have ihx := ih fun y hy => h y (by simp [hy])
    simp only [tagsFromJson, List.map_cons, List.filterMap_cons] at ihx ⊢
    rw [if_neg (by rw [hs]; exact hne)]
    rw [hl, hs, ihx]

/-! ## Record-manipulation lemmas -/

theorem objGet_removeKey_ne {kvs : List (String × Json)} {k k' : String}
    (h : k' ≠ k) : objGet (removeKey kvs k) k' = objGet kvs k' := by
  induction kvs with
  | nil => rfl
  | cons p rest ih =>
    obtain ⟨pk, pv⟩ := p
    show objGet (List.filter _ ((pk, pv) :: rest)) k' = _
    rw [List.filter_cons]
    by_cases hpk : pk = k
    · rw [if_neg (by simp [hpk])]
      show objGet (removeKey rest k) k' = _
      rw [ih]
      simp only [objGet]
      cases hr : objGet rest k' with
      | some w => rfl
      | none =>
        rw [if_neg (by rw [hpk]; exact fun hkk => h hkk.symm)]
    · rw [if_pos (by simp [hpk])]
      show objGet ((pk, pv) :: removeKey rest k) k' = _
      simp only [objGet]
      rw [ih]

theorem allowedKeys_of_removeKey {kvs : List (String × Json)} {k : String}
    (hk : taskFieldNames.contains k = true)
    (h : allowedKeys (removeKey kvs k) = true) : allowedKeys kvs = true := by
  unfold allowedKeys removeKey at *
  rw [List.all_eq_true] at *
  intro p hp
  by_cases hpk : p.1 = k
  · rw [hpk]; exact hk
  · exact h p (List.mem_filter.mpr ⟨hp, by simp [hpk]⟩)

theorem data_ne_nil_of_ne_empty {s : String} (h : s ≠ "") : s.data ≠ [] :=
  fun hd => h (str_ext hd)

/-! ## Claim C1 -/

/-- C1 is refuted at the input `"[1]"`: the text parses as JSON in its
entirety, yet the Response Parser does not succeed at the first tier with
a task list — `data.get` raises `AttributeError` on the non-`dict`
result. -/
theorem c1_counterexample_nonobject_json :
    jsonParse "[1]" = some (Json.arr [Json.num "1"]) ∧
      parseLlmResponse "[1]" = ParseOutcome.attrError :=
  ⟨rfl, rfl⟩

/-- C1 (amended): for every LLM response text that parses in its
entirety as a JSON object, the Response Parser succeeds at the first
tier without attempting the fenced-code-block or embedded-substring
fallbacks: it returns the value stored under the `"tasks"` key, or the
empty list when that key is absent — an absent `"tasks"` key is a
successful empty result, never a fallback trigger or an error. -/
theorem c1_whole_object_tier1 (t : String) (kvs : List (String × Json))
    (h : jsonParse t = some (Json.obj kvs)) :
    parseLlmResponse t = ParseOutcome.ok 1 (tasksOf kvs) := by
  simp [parseLlmResponse, tier1, h]

/-- Witness for `c1_whole_object_tier1` at a concrete object without a
`"tasks"` key. -/
theorem c1_whole_object_tier1_witness :
    parseLlmResponse "\x7b\"a\": 1\x7d" = ParseOutcome.ok 1 (Json.arr []) :=
  c1_whole_object_tier1 "\x7b\"a\": 1\x7d" [("a", Json.num "1")] rfl

/-! ## Claim C2 -/

/-- C2 is refuted at priority `""`: the empty string, lower-cased, is not
one of the four levels and the remaining fields are valid, yet the record
is skipped rather than defaulting to medium (the truthiness guard leaves
`""` in place and the enum field rejects it). -/
theorem c2_counterexample_empty_priority :
    normalizeRecord (Json.obj [("title", Json.str "Write report"),
        ("priority", Json.str "")]) = none ∧
      normalizeRecord (Json.obj [("title", Json.str "Write report")]) =
        some ⟨"Write report", none, TaskPriority.medium, TaskStatus.pending,
          none, none, [], none⟩ := by
  exact ⟨by decide, by decide⟩

/-- C2 (amended): for every raw task record whose `priority` value is a
*non-empty* string and whose remaining fields are valid (the record with
the priority entry removed normalizes), normalization produces a Task
rather than skipping the record; its priority is the level the string
names case-insensitively, and medium whenever the lower-cased string is
not one of the four levels. -/
theorem c2_nonempty_priority_defaults (kvs : List (String × Json))
    (s : String) (t0 : Task)
    (hp : objGet kvs "priority" = some (Json.str s)) (hs : s ≠ "")
    (h0 : normalizeRecord (Json.obj (removeKey kvs "priority")) = some t0) :
    normalizeRecord (Json.obj kvs) =
        some { t0 with priority := priorityFromString s } ∧
      (taskPriorityOfString (pyLower s) = none →
        priorityFromString s = TaskPriority.medium) ∧
      (∀ p, taskPriorityOfString (pyLower s) = some p →
        priorityFromString s = p) := by
  refine ⟨?_, ?_, ?_⟩
  · simp only [normalizeRecord] at h0 ⊢
    split at h0
    case isFalse => exact absurd h0 (by simp)
    case isTrue hall =>
      rw [normalizeFields_eq_some] at h0
      obtain ⟨h1, h2, h3, h4, h5, h6, h7, h8⟩ := h0
      rw [objGet_removeKey_ne (by decide)] at h1 h2 h4 h5 h6 h7 h8
      rw [if_pos (allowedKeys_of_removeKey (by decide) hall)]
      rw [normalizeFields_eq_some]
      refine ⟨h1, h2, ?_, h4, h5, h6, h7, h8⟩
      rw [hp]
      have hemp : s.data.isEmpty = false := by
        cases hd : s.data with
        | nil => exact absurd hd (data_ne_nil_of_ne_empty hs)
        | cons a l => rfl
      simp only [validatePriority, jsonTruthy, hemp, Bool.not_false, if_true]
      rfl
  · intro h
    unfold priorityFromString
    rw [h]
    rfl
  · intro p h
    unfold priorityFromString
    rw [h]
    rfl

/-- Witness for `c2_nonempty_priority_defaults` at a record with priority
`"Bogus"`. -/
theorem c2_nonempty_priority_defaults_witness :
    normalizeRecord (Json.obj [("title", Json.str "Ship it"),
        ("priority", Json.str "Bogus")]) =
      some ⟨"Ship it", none, TaskPriority.medium, TaskStatus.pending,
        none, none, [], none⟩ :=
  (c2_nonempty_priority_defaults
    [("title", Json.str "Ship it"), ("priority", Json.str "Bogus")]
    "Bogus" ⟨"Ship it", none, TaskPriority.medium, TaskStatus.pending,
      none, none, [], none⟩
    rfl (by decide) (by decide)).1

/-! ## Claim C4 -/

/-- C4's failing input evaluated on the code: a record with a valid
title and `"priority": null` is skipped by normalization (the falsy
guard leaves the null in place and the non-optional enum field rejects
it), although the same record without the priority key yields a Task
with the medium default. -/
theorem c4_null_priority_skipped :
    normalizeRecord (Json.obj [("title", Json.str "Review budget"),
        ("priority", Json.null)]) = none ∧
      normalizeRecord (Json.obj [("title", Json.str "Review budget")]) =
        some ⟨"Review budget", none, TaskPriority.medium, TaskStatus.pending,
          none, none, [], none⟩ := by
  exact ⟨by decide, by decide⟩

/-! ## Claim C5 -/

/-- C5: on input whose text is empty or whitespace-only, `extract_tasks`
returns — for every chat oracle, which is invoked zero times — a
`TaskList` with no tasks carrying the available source metadata. -/
theorem c5_empty_input_short_circuit (chat : String → ChatResult)
    (input : ExtractInput) (h : pyStrip (textOf input) = "") :
    extract_tasks chat input =
      (ExtractOutcome.ok
        { tasks := [], source_audio := (metaOf input).source_audio,
          total_duration_seconds := (metaOf input).total_duration_seconds,
          language := (metaOf input).language }, 0) := by
  simp [extract_tasks, h]

/-- Witness for `c5_empty_input_short_circuit` on whitespace text and a
failing chat oracle. -/
theorem c5_empty_input_short_circuit_witness :
    extract_tasks (fun _ => ChatResult.failure "backend down")
        (ExtractInput.fromText " \t ") =
      (ExtractOutcome.ok ⟨[], none, none, none⟩, 0) :=
  c5_empty_input_short_circuit (fun _ => ChatResult.failure "backend down")
    (ExtractInput.fromText " \t ") (by decide)

/-! ## Claim C7 -/

/-- C7: `check_connection` never returns false; it returns true exactly
when the backend answers with a model list in which some name contains
the configured model (tag suffix removed) as a substring; with a backend
answer and no matching name it raises `OllamaModelNotFoundError` naming
the configured model; and when the backend query raises, it raises
`OllamaConnectionError` whose message contains the configured host. -/
theorem c7_check_connection (cfg : OllamaConfig)
    (backend : Except String (List ModelEntry)) :
    (check_connection cfg backend ≠ CheckOutcome.ok false) ∧
      (check_connection cfg backend = CheckOutcome.ok true ↔
        ∃ models, backend = Except.ok models ∧
          (models.map fun m => m.name.getD "").any
            (fun name => strContains name (modelBase cfg.model)) = true) ∧
      (∀ models, backend = Except.ok models →
        (models.map fun m => m.name.getD "").any
          (fun name => strContains name (modelBase cfg.model)) = false →
        check_connection cfg backend = CheckOutcome.modelNotFound cfg.model) ∧
      (∀ e, backend = Except.error e →
        ∃ msg, check_connection cfg backend = CheckOutcome.connError msg ∧
          strContains msg cfg.host = true) := by
  refine ⟨?_, ?_, ?_, ?_⟩
  · cases backend with
    | error e => simp [check_connection]
    | ok models =>
      simp only [check_connection]
      split <;> simp
  · cases backend with
    | error e => simp [check_connection]
    | ok models =>
      simp only [check_connection]
      split
      case isTrue h => exact iff_of_true rfl ⟨models, rfl, h⟩
      case isFalse h =>
        simp only [reduceCtorEq, false_iff, not_exists, not_and]
        intro models' hm
        cases Except.ok.inj hm
        intro hc
        exact h hc
  · intro models hm hfalse
    cases backend with
    | error e => exact absurd hm (by simp)
    | ok models2 =>
      cases Except.ok.inj hm
      simp only [check_connection]
      rw [if_neg (by rw [hfalse]; simp)]
  · intro e he
    cases backend with
    | ok models => exact absurd he (by simp)
    | error e2 =>
      cases Except.error.inj he
      refine ⟨_, rfl, decide_eq_true ?_⟩
      refine ⟨"Cannot connect to Ollama at ".data, ": ".data ++ e.data, ?_⟩
      simp only [data_append, List.append_assoc]

/-- Witness for `c7_check_connection`: the spec's scenario — installed
models `["other-model"]`, configured model `"gemma3:4b"` — fails with
`OllamaModelNotFoundError` naming `gemma3:4b`; an unreachable backend
fails with a message containing the host. -/
theorem c7_check_connection_witness :
    check_connection ⟨"http://localhost:11434", "gemma3:4b"⟩
        (Except.ok [⟨some "other-model"⟩]) =
      CheckOutcome.modelNotFound "gemma3:4b" ∧
      ∃ msg, check_connection ⟨"myhost", "m"⟩ (Except.error "timeout") =
        CheckOutcome.connError msg ∧ strContains msg "myhost" = true :=
  ⟨(c7_check_connection ⟨"http://localhost:11434", "gemma3:4b"⟩
      (Except.ok [⟨some "other-model"⟩])).2.2.1 _ rfl (by decide),
    (c7_check_connection ⟨"myhost", "m"⟩ (Except.error "timeout")).2.2.2
      "timeout" rfl⟩

/-! ## Claim C8 -/

/-- C8: for every existing regular file whose extension is outside the
supported set, `transcribe` fails with `UnsupportedAudioFormatError`
before any engine invocation — for every engine oracle the call count is
zero. -/
theorem c8_unsupported_format_before_engine (engine : Unit → EngineResult)
    (p : FsPath) (hex : p.isExisting = true) (hf : p.isFile = true)
    (hfmt : SUPPORTED_FORMATS.contains (pyLower (formatOf p.path)) = false) :
    transcribe engine p =
      (TranscribeOutcome.audioError
        (AudioError.unsupportedFormat (pyLower (formatOf p.path))), 0) := by
  have hmem : ¬ pyLower (formatOf p.path) ∈ SUPPORTED_FORMATS := by
    simpa using hfmt
  simp [transcribe, validate_audio_file, hex, hf, hmem]

/-- Witness for `c8_unsupported_format_before_engine` at `notes.xyz`. -/
theorem c8_unsupported_format_before_engine_witness :
    transcribe (fun _ => EngineResult.failure "must not be called")
        ⟨"notes.xyz", true, true⟩ =
      (TranscribeOutcome.audioError (AudioError.unsupportedFormat "xyz"), 0) :=
  c8_unsupported_format_before_engine
    (fun _ => EngineResult.failure "must not be called")
    ⟨"notes.xyz", true, true⟩ rfl rfl (by decide)

/-! ## Claim C10 -/

/-- C10: `TranscriptionSegment` construction requires exactly
`start ≥ 0` and `end ≥ 0` and never `end ≥ start` — a segment with
negative derived duration is constructible — and `TranscriptionResult`
construction accepts segments out of chronological order whose end times
exceed `duration_seconds`. -/
theorem c10_segment_constraints :
    (∀ (s e : Rat) (txt : String),
        (mkTranscriptionSegment s e txt).isSome = true ↔ 0 ≤ s ∧ 0 ≤ e) ∧
      (∃ seg, mkTranscriptionSegment 5 3 "x" = some seg ∧ seg.duration < 0) ∧
      (∃ tr, mkTranscriptionResult "t" [⟨4, 9, "b"⟩, ⟨1, 2, "a"⟩] "en" 1 3
          none = some tr ∧ ¬ chronological tr.segments ∧
          ∃ seg ∈ tr.segments, tr.duration_seconds < seg.«end») := by
  refine ⟨?_, ?_, ?_⟩
  · intro s e txt
    unfold mkTranscriptionSegment
    split_ifs with h <;> simp [h]
  · refine ⟨⟨5, 3, "x"⟩, ?_, ?_⟩
    · unfold mkTranscriptionSegment
      rw [if_pos (by norm_num)]
    · show (3 : Rat) - 5 < 0
      norm_num
  · refine ⟨⟨"t", [⟨4, 9, "b"⟩, ⟨1, 2, "a"⟩], "en", 1, 3, none⟩, ?_, ?_, ?_⟩
    · unfold mkTranscriptionResult
      rw [if_pos (by norm_num)]
    · unfold chronological
      simp only [List.chain'_cons]
      intro hc
      have := hc.1
      norm_num at this
    · exact ⟨⟨4, 9, "b"⟩, by simp, by norm_num⟩

/-- Witness for `c10_segment_constraints`: a valid segment via the
equivalence. -/
theorem c10_segment_constraints_witness :
    (mkTranscriptionSegment 0 1 "s").isSome = true :=
  (c10_segment_constraints.1 0 1 "s").mpr (by norm_num)

/-! ## Claim C3 -/

/-- C3: every record whose title is missing, empty, or whitespace-only is
dropped; the batch is processed left to right and concatenates, a dropped
record removes exactly itself, output length decreases by exactly one per
invalid record, and — at the orchestrator level — record contents never
turn a successfully parsed response into an error. -/
theorem c3_bad_title_dropped_batch_continues :
    (∀ kvs : List (String × Json), badTitleRecord kvs = true →
      normalizeRecord (Json.obj kvs) = none) ∧
      (∀ l1 l2 : List Json,
        normalizeBatch (l1 ++ l2) = normalizeBatch l1 ++ normalizeBatch l2) ∧
      (∀ (l1 l2 : List Json) (r : Json), normalizeRecord r = none →
        normalizeBatch (l1 ++ r :: l2) = normalizeBatch (l1 ++ l2)) ∧
      (∀ l : List Json,
        (normalizeBatch l).length +
          (l.filter fun r => (normalizeRecord r).isNone).length = l.length) ∧
      (∀ (chat : String → ChatResult) (input : ExtractInput)
        (content : String) (tier : Nat) (v : Json) (recs : List Json),
        pyStrip (textOf input) ≠ "" →
        chat (promptFor (textOf input)) = ChatResult.success content →
        parseLlmResponse content = ParseOutcome.ok tier v →
        recordsOf v = Except.ok recs →
        extract_tasks chat input =
          (ExtractOutcome.ok
            { tasks := normalizeBatch recs,
              source_audio := (metaOf input).source_audio,
              total_duration_seconds := (metaOf input).total_duration_seconds,
              language := (metaOf input).language }, 1)) := by
  refine ⟨?_, ?_, ?_, ?_, ?_⟩
  · intro kvs h
    simp only [normalizeRecord]
    split
    case isFalse => rfl
    case isTrue hall =>
      cases ht : objGet kvs "title" with
      | none => simp [normalizeFields, validateTitle, ht]
      | some j =>
        simp only [badTitleRecord, ht] at h
        cases j with
        | str s =>
          simp only [beq_iff_eq] at h
          simp [normalizeFields, validateTitle, ht, h]
        | null => exact absurd h (by simp)
        | bool b => exact absurd h (by simp)
        | num lx => exact absurd h (by simp)
        | arr l => exact absurd h (by simp)
        | obj kvs2 => exact absurd h (by simp)
  · intro l1 l2
    simp [normalizeBatch, List.filterMap_append]
  · intro l1 l2 r h
    simp [normalizeBatch, List.filterMap_append, List.filterMap_cons, h]
  · intro l
    induction l with
    | nil => rfl
    | cons r rest ih =>
      simp only [normalizeBatch] at ih ⊢
      cases h : normalizeRecord r with
      | none =>
        simp [List.filterMap_cons, List.filter_cons, h]
        omega
      | some task =>
        simp [List.filterMap_cons, List.filter_cons, h]
        omega
  · intro chat input content tier v recs hne hchat hparse hrecs
    simp [extract_tasks, hne, hchat, hparse, hrecs]

/-- Witness for `c3_bad_title_dropped_batch_continues`: a whitespace-only
title is dropped and the surrounding batch is unaffected. -/
theorem c3_bad_title_dropped_witness :
    normalizeRecord (Json.obj [("title", Json.str "   ")]) = none ∧
      normalizeBatch [Json.obj [("title", Json.str "A")],
          Json.obj [("title", Json.str " ")],
          Json.obj [("title", Json.str "B")]] =
        normalizeBatch [Json.obj [("title", Json.str "A")],
          Json.obj [("title", Json.str "B")]] :=
  ⟨c3_bad_title_dropped_batch_continues.1 [("title", Json.str "   ")] (by decide),
    c3_bad_title_dropped_batch_continues.2.2.1
      [Json.obj [("title", Json.str "A")]]
      [Json.obj [("title", Json.str "B")]]
      (Json.obj [("title", Json.str " ")]) (by decide)⟩

/-! ## Claim C6 -/

theorem scanFirst_eq_some {p : Nat → Bool} {i n j : Nat}
    (h : scanFirst p i n = some j) :
    p j = true ∧ i ≤ j ∧ j < i + n ∧ ∀ m, i ≤ m → m < j → p m = false := by
  induction n generalizing i with
  | zero => cases h
  | succ n ih =>
    unfold scanFirst at h
    by_cases hp : p i = true
    · rw [if_pos hp] at h
      cases Option.some.inj h
      exact ⟨hp, Nat.le_refl _, by omega, fun m h1 h2 => absurd h1 (by omega)⟩
    · rw [if_neg hp] at h
      obtain ⟨hj, hij, hlt, hmin⟩ := ih h
      refine ⟨hj, by omega, by omega, ?_⟩
      intro m h1 h2
      by_cases hm : m = i
      · subst hm
        exact Bool.eq_false_iff.mpr hp
      · exact hmin m (by omega) h2

theorem scanLast_eq_none {p : Nat → Bool} {i n : Nat}
    (h : scanLast p i n = none) :
    ∀ m, i ≤ m → m < i + n → p m = false := by
  induction n generalizing i with
  | zero => intro m h1 h2; omega
  | succ n ih =>
    unfold scanLast at h
    intro m h1 h2
    cases hrec : scanLast p (i + 1) n with
    | some j => rw [hrec] at h; cases h
    | none =>
      rw [hrec] at h
      by_cases hp : p i = true
      · rw [if_pos hp] at h; cases h
      · by_cases hm : m = i
        · subst hm
          exact Bool.eq_false_iff.mpr hp
        · exact ih hrec m (by omega) (by omega)

theorem scanLast_eq_some {p : Nat → Bool} {i n j : Nat}
    (h : scanLast p i n = some j) :
    p j = true ∧ i ≤ j ∧ j < i + n ∧ ∀ m, j < m → m < i + n → p m = false := by
  induction n generalizing i with
  | zero => cases h
  | succ n ih =>
    unfold scanLast at h
    cases hrec : scanLast p (i + 1) n with
    | some j2 =>
      rw [hrec] at h
      cases Option.some.inj h
      obtain ⟨hj, hij, hlt, hmax⟩ := ih hrec
      exact ⟨hj, by omega, by omega, fun m h1 h2 => hmax m h1 (by omega)⟩
    | none =>
      rw [hrec] at h
      by_cases hp : p i = true
      · rw [if_pos hp] at h
        cases Option.some.inj h
        refine ⟨hp, Nat.le_refl _, by omega, ?_⟩
        intro m h1 h2
        exact scanLast_eq_none hrec m (by omega) (by omega)
      · rw [if_neg hp] at h
        cases h

theorem tier3Search_eq_some {t g : String} (h : tier3Search t = some g) :
    ∃ i k, scanFirst (openFeasible t.data) 0 t.data.length = some i ∧
      scanLast (closeFeasible t.data i) 0 t.data.length = some k ∧
      g = ⟨(t.data.drop i).take (k + 1 - i)⟩ := by
  unfold tier3Search at h
  split at h
  next => cases h
  next i h1 =>
    split at h
    next => cases h
    next k h2 =>
      cases Option.some.inj h
      exact ⟨i, k, h1, h2, rfl⟩

/-- C6 is refuted where greediness matters: on this text tiers 1 and 2
fail, the smallest/first substring matching `{ ... "tasks" ... }` is
present and parses to an empty task list, yet the parser fails, because
the regex's greedy match runs to the last brace of the text. -/
theorem c6_counterexample_greedy_not_smallest :
    tier1 "x \x7b\"tasks\": []\x7d y \x7d" = TierResult.noParse ∧
      tier2 "x \x7b\"tasks\": []\x7d y \x7d" = TierResult.noParse ∧
      parseLlmResponse "x \x7b\"tasks\": []\x7d y \x7d" =
        ParseOutcome.parseError ∧
      ("\x7b\"tasks\": []\x7d".data <:+: "x \x7b\"tasks\": []\x7d y \x7d".data) ∧
      jsonParse "\x7b\"tasks\": []\x7d" =
        some (Json.obj [("tasks", Json.arr [])]) :=
  ⟨rfl, rfl, rfl, by decide, rfl⟩

/-- C6 (amended): when tiers 1 and 2 fail and the tier-3 pattern matches,
the parser selects and parses the *greedy* span: from the first position
where `\{.*"tasks".*\}` can match to the last feasible closing brace of
the whole text (not the smallest such substring). -/
theorem c6_tier3_greedy (t g : String)
    (h1 : tier1 t = TierResult.noParse) (h2 : tier2 t = TierResult.noParse)
    (h3 : tier3Search t = some g) :
    (∃ i k, openFeasible t.data i = true ∧
        (∀ m, m < i → openFeasible t.data m = false) ∧
        closeFeasible t.data i k = true ∧
        (∀ m, k < m → m < t.data.length → closeFeasible t.data i m = false) ∧
        g = ⟨(t.data.drop i).take (k + 1 - i)⟩) ∧
      parseLlmResponse t =
        (match jsonParse g with
          | some (Json.obj kvs) => ParseOutcome.ok 3 (tasksOf kvs)
          | some _ => ParseOutcome.attrError
          | none => ParseOutcome.parseError) := by
  constructor
  · obtain ⟨i, k, hf, hl, hg⟩ := tier3Search_eq_some h3
    obtain ⟨hpi, _, _, hmin⟩ := scanFirst_eq_some hf
    obtain ⟨hpk, _, hklt, hmax⟩ := scanLast_eq_some hl
    exact ⟨i, k, hpi, fun m hm => hmin m (Nat.zero_le m) hm, hpk,
      fun m hm1 hm2 => hmax m hm1 (by omega), hg⟩
  · simp only [parseLlmResponse, h1, h2, tier3, h3]
    cases hj : jsonParse g with
    | none => simp [hj]
    | some v => cases v <;> simp [hj]

/-- Witness for `c6_tier3_greedy` on a concrete prose-embedded object. -/
theorem c6_tier3_greedy_witness :
    parseLlmResponse "a \x7b\"tasks\": [1]\x7d b" =
      ParseOutcome.ok 3 (Json.arr [Json.num "1"]) :=
  (c6_tier3_greedy "a \x7b\"tasks\": [1]\x7d b" "\x7b\"tasks\": [1]\x7d"
    rfl rfl rfl).2

/-! ## Claim C9 -/

/-- C9: normalization is a stable fixed point — for every Task the
normalizer produced, feeding the Task's field mapping back through the
normalization step yields the identical Task. -/
theorem c9_renormalization_fixed_point (r : Json) (t : Task)
    (h : normalizeRecord r = some t) :
    normalizeRecord (Json.obj (taskToRecord t)) = some t := by
  match r with
  | Json.null => exact absurd h (by simp [normalizeRecord])
  | Json.bool b => exact absurd h (by simp [normalizeRecord])
  | Json.num lx => exact absurd h (by simp [normalizeRecord])
  | Json.str s => exact absurd h (by simp [normalizeRecord])
  | Json.arr l => exact absurd h (by simp [normalizeRecord])
  | Json.obj kvs =>
    simp only [normalizeRecord] at h ⊢
    split at h
    case isFalse => exact absurd h (by simp)
    case isTrue hall =>
      rw [normalizeFields_eq_some] at h
      obtain ⟨h1, h2, h3, h4, h5, h6, h7, h8⟩ := h
      obtain ⟨hstrip, hlen1, hlen2⟩ := validateTitle_inv h1
      have hdesc := validateOptStr_inv h2
      have hass := validateOptStr_inv h6
      have hsrc := validateOptStr_inv h7
      have hdue := validateDueDate_inv h5
      have htags : ∀ x ∈ t.tags, pyStrip x = x ∧ pyLower x = x ∧ x ≠ "" := by
        intro x hx
        rw [← h8] at hx
        exact tagsFromJson_mem hx
      rw [if_pos (show allowedKeys (taskToRecord t) = true from rfl)]
      refine (normalizeFields_eq_some).mpr
        ⟨?_, ?_, ?_, ?_, ?_, ?_, ?_, ?_⟩
      · exact validateTitle_self hstrip hlen1 hlen2
      · exact validateOptStr_self hdesc
      · exact validatePriority_value t.priority
      · exact validateStatus_value t.status
      · exact validateDueDate_self hdue
      · exact validateOptStr_self hass
      · exact validateOptStr_self hsrc
      · exact tagsFromJson_self htags

/-- Witness for `c9_renormalization_fixed_point` on a fully populated
normalized record. -/
theorem c9_renormalization_fixed_point_witness :
    normalizeRecord (Json.obj (taskToRecord
        ⟨"Ship release", some "cut the build", TaskPriority.high,
          TaskStatus.pending, some "2024-03-01T10:00:00", some "Ana",
          ["release", "build"], none⟩)) =
      some ⟨"Ship release", some "cut the build", TaskPriority.high,
        TaskStatus.pending, some "2024-03-01T10:00:00", some "Ana",
        ["release", "build"], none⟩ :=
  c9_renormalization_fixed_point
    (Json.obj [("title", Json.str "Ship release"),
      ("description", Json.str "cut the build"),
      ("priority", Json.str "High"), ("status", Json.str "pending"),
      ("due_date", Json.str "2024-03-01T10:00:00"),
      ("assignee", Json.str "Ana"),
      ("tags", Json.arr [Json.str "Release", Json.str " build "])])
    ⟨"Ship release", some "cut the build", TaskPriority.high,
      TaskStatus.pending, some "2024-03-01T10:00:00", some "Ana",
      ["release", "build"], none⟩
    (by decide)

end AudioToTasks
